import Mathlib

/-!
Shallow embedding of the newsnerdrepos-bsky pipeline (three batch jobs:
download.py, new_repos_detector.py, post_to_bluesky.py) and proofs about it.
File system, network and API effects are passed in explicitly as parameters;
the pure data-flow of each script is translated directly from the source.
-/

set_option maxRecDepth 8192

namespace NewsNerd

/-- One row of a snapshot CSV as the scripts read it with pandas.  The diff
uses only the `full_name` column; the publisher additionally reads `org`,
`name` and `description` (the latter is `none` when the CSV cell is NaN).
Remaining columns are carried opaquely in `rest`. -/
structure Row where
  org : String
  name : String
  full_name : String
  description : Option String
  rest : List String
deriving DecidableEq, Repr

/-- Outcome of one run of the detector: the process exit code and the rows
written to `new_repos.csv` (`none` when no output file is written). -/
structure DifferOutcome where
  exitCode : Nat
  output : Option (List Row)
deriving DecidableEq, Repr

/-- Result of the `pd.read_csv` calls in `new_repos_detector.cli`: either both
snapshots load, or some exception is raised while reading. -/
inductive CsvLoad where
  | err
  | ok (prev cur : List Row)
deriving DecidableEq, Repr

/-- Line 47 of new_repos_detector.py: keep the rows of `cur` whose
`full_name` does not occur in the `full_name` column of `prev` (the pandas
filter through the negated `isin` membership test). -/
def newRepos (cur prev : List Row) : List Row :=
  cur.filter (fun r => !(prev.any (fun p => p.full_name == r.full_name)))

/-- Model of `new_repos_detector.cli`: exit 0 when the previous snapshot is missing;
exit 1 when reading a CSV raises; otherwise diff, exit 0 with no output file
when the diff is empty, and write the diff and exit 1 when it is not. -/
def differCli (previousExists : Bool) (load : CsvLoad) : DifferOutcome :=
  if previousExists = false then ⟨0, none⟩
  else
    match load with
    | .err => ⟨1, none⟩
    | .ok prev cur =>
      let nr := newRepos cur prev
      if nr.length = 0 then ⟨0, none⟩
      else ⟨1, some nr⟩

/-- A sample repository row used for concrete instances. -/
def sampleRow : Row :=
  { org := "acme", name := "c", full_name := "acme/c", description := none, rest := [] }

theorem mem_newRepos (cur prev : List Row) (r : Row) :
    r ∈ newRepos cur prev ↔ r ∈ cur ∧ r.full_name ∉ prev.map Row.full_name := by
  simp [newRepos, List.mem_filter, List.any_eq_true, List.mem_map]

/-- C1: a row is in the new-repos output of the Differ exactly when it is a
row of the current table whose `full_name` does not occur in the previous
`full_name` column of the previous table (when no output file is written the output is
read as the empty table). -/
theorem c1_set_difference (prev cur : List Row) (r : Row) :
    r ∈ (differCli true (CsvLoad.ok prev cur)).output.getD [] ↔
      r ∈ cur ∧ r.full_name ∉ prev.map Row.full_name := by
  rw [← mem_newRepos]
  by_cases hl : (newRepos cur prev).length = 0
  · rw [List.length_eq_zero] at hl
    simp [differCli, hl]
  · simp [differCli, hl]

/-- C5: when the previous snapshot file does not exist the Differ exits with
code 0 and writes no output file, whatever the current table holds. -/
theorem c5_first_run (load : CsvLoad) : differCli false load = ⟨0, none⟩ := rfl

/-- C3 counterexample: the claim says the found-new-repos exit code differs
from the CSV-read-error exit code, but on a run that finds a new repository
the Differ exits 1 and on a read error it also exits 1. -/
theorem c3_counterexample :
    (differCli true (CsvLoad.ok [] [sampleRow])).output = some [sampleRow] ∧
    (differCli true (CsvLoad.ok [] [sampleRow])).exitCode = 1 ∧
    (differCli true CsvLoad.err).exitCode = 1 := by decide

/-- C3 amended: the exit code when new repositories are found (1) is distinct
from the exit code when there are none (0), but it coincides with the exit
code used when reading an input CSV fails (also 1). -/
theorem c3_exit_codes (prev cur prev' cur' : List Row)
    (hfound : newRepos cur prev ≠ [])
    (hnone : newRepos cur' prev' = []) :
    (differCli true (CsvLoad.ok prev cur)).exitCode = 1 ∧
    (differCli true (CsvLoad.ok prev' cur')).exitCode = 0 ∧
    (differCli true CsvLoad.err).exitCode = 1 := by
  have hlen : (newRepos cur prev).length ≠ 0 := by
    simpa [List.length_eq_zero] using hfound
  refine ⟨?_, ?_, rfl⟩
  · simp [differCli, hlen]
  · simp [differCli, hnone]

theorem c3_exit_codes_witness :
    (differCli true (CsvLoad.ok [] [sampleRow])).exitCode = 1 ∧
    (differCli true (CsvLoad.ok [] [])).exitCode = 0 ∧
    (differCli true CsvLoad.err).exitCode = 1 :=
  c3_exit_codes [] [sampleRow] [] [] (by decide) (by decide)

/-- C8 counterexample: the claim says running the Differ on any unchanged
pair of snapshots yields an empty new-repos result both times, but on the
pair (previous = [], current = [sampleRow]) every run produces a non-empty
result: the output is neither absent nor the empty table. -/
theorem c8_counterexample :
    ¬ ((differCli true (CsvLoad.ok [] [sampleRow])).output = none ∨
       (differCli true (CsvLoad.ok [] [sampleRow])).output = some []) := by decide

/-- C8 amended: the Differ is a pure function of its two input tables, so
repeated runs on the same pair give the same result; and on an unchanged
pair — one where every `full_name` of the current table already occurs in
the previous table — the result is empty (exit 0, no output file) on the
first and on every repeated run. -/
theorem c8_idempotent (prev cur : List Row)
    (h : ∀ r ∈ cur, r.full_name ∈ prev.map Row.full_name) :
    differCli true (CsvLoad.ok prev cur) = ⟨0, none⟩ := by
  have hnil : newRepos cur prev = [] := by
    rw [List.eq_nil_iff_forall_not_mem]
    intro r hmem
    rcases (mem_newRepos cur prev r).1 hmem with ⟨hc, hn⟩
    exact hn (h r hc)
  simp [differCli, hnil]

theorem c8_idempotent_witness :
    differCli true (CsvLoad.ok [sampleRow] [sampleRow]) = ⟨0, none⟩ :=
  c8_idempotent [sampleRow] [sampleRow] (by decide)

/-- Python `str.split(sep)` for a one-character separator, over the char list
of the string: splitting the empty string gives `[""]`, as in Python. -/
def pySplit (sep : Char) : List Char → List Char → List String
  | [], acc => [⟨acc.reverse⟩]
  | c :: rest, acc =>
    if c = sep then ⟨acc.reverse⟩ :: pySplit sep rest []
    else pySplit sep rest (c :: acc)

/-- Python `str.lower()` (ASCII case mapping, which covers the handles this
pipeline sees). -/
def pyLower (s : String) : String :=
  ⟨s.data.map Char.toLower⟩

/-- Python `str.strip()`: drop whitespace from both ends. -/
def pyStrip (s : String) : String :=
  ⟨((s.data.dropWhile Char.isWhitespace).reverse.dropWhile Char.isWhitespace).reverse⟩

/-- Line 51 of download.py, the per-row handle computation: split on the
slash character, take the last segment, lower-case it, then strip it. -/
def normalizeHandle (x : String) : String :=
  pyStrip (pyLower ((pySplit '/' x.data []).getLastD ("")))

/-- One row of the remote `orgs.csv`: its `Github` URL column plus the other
columns, carried opaquely. -/
structure OrgRow where
  github : String
  restCols : List String
deriving DecidableEq, Repr

/-- The handle column assignment of download.py line 51: each row paired
with its normalized handle. -/
def withHandles (rows : List OrgRow) : List (OrgRow × String) :=
  rows.map (fun r => (r, normalizeHandle r.github))

/-- The drop_duplicates call of download.py line 66, keyed on the handle
column and keeping first occurrences: keep a row only when its handle has
not been seen on an earlier row. -/
def dropDupHandles : List (OrgRow × String) → List String → List (OrgRow × String)
  | [], _ => []
  | p :: rest, seen =>
    if p.2 ∈ seen then dropDupHandles rest seen
    else p :: dropDupHandles rest (p.2 :: seen)

/-- The handle column of the deduplicated table, which `download.cli` then
iterates over. -/
def dedupedHandles (rows : List OrgRow) : List String :=
  (dropDupHandles (withHandles rows) []).map Prod.snd

theorem dropDupHandles_sublist (l : List (OrgRow × String)) (seen : List String) :
    (dropDupHandles l seen).Sublist l := by
  induction l generalizing seen with
  | nil => simp [dropDupHandles]
  | cons p rest ih =>
    by_cases hp : p.2 ∈ seen
    · rw [dropDupHandles, if_pos hp]
      exact (ih seen).cons p
    · rw [dropDupHandles, if_neg hp]
      exact (ih (p.2 :: seen)).cons₂ p

theorem dropDupHandles_nodup (l : List (OrgRow × String)) (seen : List String) :
    ((dropDupHandles l seen).map Prod.snd).Nodup ∧
      ∀ h ∈ (dropDupHandles l seen).map Prod.snd, h ∉ seen := by
  induction l generalizing seen with
  | nil => simp [dropDupHandles]
  | cons p rest ih =>
    by_cases hp : p.2 ∈ seen
    · simpa [dropDupHandles, hp] using ih seen
    · have hrec := ih (p.2 :: seen)
      rw [dropDupHandles, if_neg hp]
      refine ⟨?_, ?_⟩
      · rw [List.map_cons, List.nodup_cons]
        exact ⟨fun hmem => (hrec.2 p.2 hmem) (List.mem_cons_self _ _), hrec.1⟩
      · intro h hmem
        rw [List.map_cons, List.mem_cons] at hmem
        rcases hmem with rfl | hmem
        · exact hp
        · exact fun hseen => hrec.2 h hmem (List.mem_cons_of_mem _ hseen)

theorem dropDupHandles_find? (l : List (OrgRow × String)) (seen : List String)
    (h : String) (hh : h ∉ seen) :
    (dropDupHandles l seen).find? (fun p => p.2 == h) =
      l.find? (fun p => p.2 == h) := by
  induction l generalizing seen with
  | nil => rfl
  | cons p rest ih =>
    by_cases hp : p.2 ∈ seen
    · have hne : (p.2 == h) = false := by
        rw [beq_eq_false_iff_ne]
        rintro rfl
        exact hh hp
      rw [dropDupHandles, if_pos hp, List.find?_cons_of_neg _ (by simp [hne]),
        ih seen hh]
    · rw [dropDupHandles, if_neg hp]
      by_cases he : p.2 = h
      · rw [List.find?_cons_of_pos _ (by simp [he]),
          List.find?_cons_of_pos _ (by simp [he])]
      · have hh' : h ∉ p.2 :: seen := by
          rw [List.mem_cons]
          rintro (rfl | hmem)
          · exact he rfl
          · exact hh hmem
        rw [List.find?_cons_of_neg _ (by simp [he]),
          List.find?_cons_of_neg _ (by simp [he]), ih (p.2 :: seen) hh']

/-- C6: the handle column after deduplication has no duplicates; the kept
rows are a subsequence of the original rows; for every handle the kept row is
the first original row with that handle (later duplicates are dropped); and
the two-row table pointing at `github.com/ACME` and `github.com/acme`
normalizes and deduplicates to the single handle `acme`. -/
theorem c6_handle_dedup (rows : List OrgRow) :
    (dedupedHandles rows).Nodup ∧
    (dropDupHandles (withHandles rows) []).Sublist (withHandles rows) ∧
    (∀ h, (dropDupHandles (withHandles rows) []).find? (fun p => p.2 == h) =
      (withHandles rows).find? (fun p => p.2 == h)) ∧
    dedupedHandles [⟨"github.com/ACME", []⟩, ⟨"github.com/acme", []⟩] = ["acme"] := by
  refine ⟨(dropDupHandles_nodup _ _).1, dropDupHandles_sublist _ _,
    fun h => dropDupHandles_find? _ _ h (by simp), ?_⟩
  rfl

/-- A repository object as returned by the hosting API, restricted to the
attributes `get_repo_list` reads.  `license` stands for `r.license.name` when
a license object is present and `none` otherwise; `str(...)` timestamps are
carried as strings. -/
structure ApiRepo where
  name : String
  full_name : String
  homepage : Option String
  description : Option String
  language : Option String
  created_at : String
  updated_at : String
  pushed_at : String
  fork : Bool
  stargazers_count : Nat
  watchers_count : Nat
  forks_count : Nat
  open_issues_count : Nat
  license : Option String
  topics : List String
deriving DecidableEq, Repr

/-- The dict built for each repository in `get_repo_list` (download.py lines
117-136): the org handle plus the repository attributes. -/
structure RepoDict where
  org : String
  name : String
  full_name : String
  homepage : Option String
  description : Option String
  language : Option String
  created_at : String
  updated_at : String
  pushed_at : String
  fork : Bool
  stargazers_count : Nat
  watchers_count : Nat
  forks_count : Nat
  open_issues_count : Nat
  license : Option String
  topics : List String
deriving DecidableEq, Repr

/-- The per-repository dict construction in `get_repo_list`. -/
def repoToDict (org : String) (r : ApiRepo) : RepoDict :=
  { org := org, name := r.name, full_name := r.full_name,
    homepage := r.homepage, description := r.description,
    language := r.language, created_at := r.created_at,
    updated_at := r.updated_at, pushed_at := r.pushed_at, fork := r.fork,
    stargazers_count := r.stargazers_count,
    watchers_count := r.watchers_count, forks_count := r.forks_count,
    open_issues_count := r.open_issues_count, license := r.license,
    topics := r.topics }

/-- Outcome of `g.get_organization(org).get_repos()` (resp. the user
fallback): either a repository list, or `UnknownObjectException`. -/
inductive Lookup where
  | found (repos : List ApiRepo)
  | notFound
deriving DecidableEq, Repr

/-- Observable outcome of one `get_repo_list` call: the returned list, the
content written to the per-handle cache file (`none` when no file is
written), and whether `time.sleep(wait)` ran. -/
structure FetchOutcome where
  result : List RepoDict
  wroteCache : Option (List RepoDict)
  slept : Bool
deriving DecidableEq, Repr

/-- Model of `download.get_repo_list`: return the cached list when the cache file
exists and `force` is off; otherwise try the handle as an organization, then
as a user; when both raise not-found, return `[]` (no cache write, no sleep);
on success build the dicts, write the cache file, sleep, and return them. -/
def get_repo_list (org : String) (cacheExists : Bool) (cached : List RepoDict)
    (force : Bool) (orgLookup userLookup : Lookup) : FetchOutcome :=
  if cacheExists && !force then ⟨cached, none, false⟩
  else
    match orgLookup with
    | .found rs =>
      let d := rs.map (repoToDict org)
      ⟨d, some d, true⟩
    | .notFound =>
      match userLookup with
      | .found rs =>
        let d := rs.map (repoToDict org)
        ⟨d, some d, true⟩
      | .notFound => ⟨[], none, false⟩

/-- C10: when the handle resolves neither as an organization nor as a user,
`get_repo_list` returns the empty list, writes no per-handle cache file and
does not sleep (stated for every call that reaches the API, i.e. whenever
the cache-file short-circuit does not apply). -/
theorem c10_lookup_failure (org : String) (cacheExists : Bool)
    (cached : List RepoDict) (force : Bool)
    (h : cacheExists = false ∨ force = true) :
    get_repo_list org cacheExists cached force Lookup.notFound Lookup.notFound =
      ⟨[], none, false⟩ := by
  rcases h with rfl | rfl
  · rfl
  · cases cacheExists <;> rfl

theorem c10_lookup_failure_witness :
    get_repo_list ("acme") false [] false Lookup.notFound Lookup.notFound =
      ⟨[], none, false⟩ :=
  c10_lookup_failure ("acme") false [] false (Or.inl rfl)

/-- Result of the body of the `try` block in `translate_to_norwegian`
(constructing the deepl translator and calling it): the translated text, or
any raised exception. -/
inductive TranslationOutcome where
  | success (t : String)
  | failure
deriving DecidableEq, Repr

/-- Model of `post_to_bluesky.translate_to_norwegian`: return the text unchanged when
it is empty or whitespace-only, when `DEEPL_API_KEY` is unset (or empty), or
when the translation call raises; otherwise return the translation.  The
function is total: no branch raises. -/
def translate_to_norwegian (apiKey : Option String)
    (callResult : TranslationOutcome) (text : String) : String :=
  if text = "" ∨ pyStrip text = "" then text
  else if apiKey.getD ("") = "" then text
  else
    match callResult with
    | .success t => t
    | .failure => text

/-- C7: `translate_to_norwegian` returns the original text unchanged whenever
the `DEEPL_API_KEY` environment variable is unset or the translation call
raises; being a total Lean function it never raises. -/
theorem c7_translation_fallback (apiKey : Option String)
    (callResult : TranslationOutcome) (text : String)
    (h : apiKey = none ∨ callResult = TranslationOutcome.failure) :
    translate_to_norwegian apiKey callResult text = text := by
  rcases h with rfl | rfl
  · simp [translate_to_norwegian]
  · simp only [translate_to_norwegian]
    split_ifs <;> rfl

theorem c7_translation_fallback_witness :
    translate_to_norwegian none TranslationOutcome.failure ("hello") = "hello" :=
  c7_translation_fallback none TranslationOutcome.failure ("hello") (Or.inl rfl)

/-- Python slice `s[:n]` on a string (character indices, as in the source). -/
def pySlice (s : String) (n : Nat) : String :=
  ⟨s.data.take n⟩

/-- UTF-8 encoding of one character, modelling the byte production of the
Python string encode method used at line 126 of post_to_bluesky.py. -/
def utf8Char (c : Char) : List Nat :=
  let n := c.toNat
  if n < 128 then [n]
  else if n < 2048 then [192 + n / 64, 128 + n % 64]
  else if n < 65536 then [224 + n / 4096, 128 + n / 64 % 64, 128 + n % 64]
  else [240 + n / 262144, 128 + n / 4096 % 64, 128 + n / 64 % 64, 128 + n % 64]

/-- UTF-8 encoding of a string as a byte list, as computed by the encode
calls at lines 126-127 of post_to_bluesky.py. -/
def utf8Bytes (s : String) : List Nat :=
  s.data.flatMap utf8Char

/-- Index of the first occurrence of `pat` in `hay` (`bytes.find`), `none`
when absent. -/
def findSubIdx : List Nat → List Nat → Option Nat
  | [], pat => if pat.isPrefixOf ([] : List Nat) then some 0 else none
  | h :: t, pat =>
    if pat.isPrefixOf (h :: t) then some 0
    else (findSubIdx t pat).map (· + 1)

/-- Python `bytes.find`: first index of `pat` in `hay`, `-1` when absent. -/
def bytesFind (hay pat : List Nat) : Int :=
  match findSubIdx hay pat with
  | some i => (i : Int)
  | none => -1

/-- The link facet of a post: byte offsets into the UTF-8 encoded text and
the link target. -/
structure Facet where
  byteStart : Int
  byteEnd : Int
  uri : String
deriving DecidableEq, Repr

/-- A Bluesky post record as built by `create_repo_post` (the wall-clock
`createdAt` timestamp is outside the embedding). -/
structure PostRecord where
  text : String
  facets : List Facet
deriving DecidableEq, Repr

/-- The repository URL built at line 102 of post_to_bluesky.py. -/
def repoUrl (full_name : String) : String :=
  "https://github.com/" ++ full_name

/-- Lines 106-107 of post_to_bluesky.py: the description after the optional
translation pass (`none` models a NaN cell). -/
def translatedDescription (translate : String → String)
    (description : Option String) : Option String :=
  match description with
  | some d => if d ≠ "" then some (translate d) else some d
  | none => none

/-- The fixed part of the post body: org, the connecting Norwegian phrase,
full name, a colon and the repository URL. -/
def postBase (org full_name : String) : String :=
  org ++ " har nettopp åpnet repoet " ++ full_name ++ ": " ++ repoUrl full_name

/-- Lines 109-123 of post_to_bluesky.py: assemble the post text from the
fixed part and the (already translated) description, then truncate the
description portion when the text exceeds 300 characters. -/
def postText (org full_name : String) (desc : Option String) : String :=
  let preText := postBase org full_name
  let text :=
    match desc with
    | some d => if d ≠ "" then preText ++ "\n\n" ++ d else preText
    | none => preText
  if text.length > 300 then
    let base_text := preText ++ "\n\n"
    let remaining : Int := 300 - (base_text.length : Int) - 3
    if 0 < remaining ∧ desc.isSome then
      base_text ++ pySlice (desc.getD ("")) remaining.toNat ++ "..."
    else preText
  else text

/-- Model of `post_to_bluesky.create_repo_post`: translate the description, build the
(possibly truncated) text, and attach a link facet whose byte offsets are
computed on the UTF-8 encoding of the final text. -/
def createRepoPost (translate : String → String)
    (org repo_name full_name : String) (description : Option String) :
    PostRecord :=
  let repo_url := repoUrl full_name
  let desc := translatedDescription translate description
  let text := postText org full_name desc
  let text_bytes := utf8Bytes text
  let url_bytes := utf8Bytes repo_url
  let url_start := bytesFind text_bytes url_bytes
  let url_end := url_start + (url_bytes.length : Int)
  { text := text,
    facets := [{ byteStart := url_start, byteEnd := url_end, uri := repo_url }] }

theorem pySlice_length (s : String) (n : Nat) :
    (pySlice s n).length = min n s.length := by
  show (s.data.take n).length = min n s.data.length
  exact List.length_take n s.data

/-- Whatever the description, the final text is the fixed part followed by a
tail that is empty, the separator plus the whole description, or the
separator plus a character-slice of the description plus an ellipsis. -/
theorem postText_shape (org full_name : String) (desc : Option String) :
    ∃ tail, postText org full_name desc = postBase org full_name ++ tail ∧
      (tail = "" ∨ tail = "\n\n" ++ desc.getD ("") ∨
        ∃ k, tail = "\n\n" ++ pySlice (desc.getD ("")) k ++ "...") := by
  cases desc with
  | none =>
    refine ⟨"", ?_, Or.inl rfl⟩
    rw [String.append_empty]
    simp only [postText]
    split_ifs with h1 h2
    · exact absurd h2.2 (by simp)
    · rfl
    · rfl
  | some d =>
    by_cases hd : d = ""
    · subst hd
      refine ⟨"", ?_, Or.inl rfl⟩
      rw [String.append_empty]
      simp only [postText, ne_eq, not_true_eq_false, if_false]
      split_ifs with h1 h2
      · exfalso
        have h2' := h2.1
        rw [String.length_append] at h2'
        have hb : ("\n\n" : String).length = 2 := rfl
        rw [hb] at h2'
        omega
      · rfl
      · rfl
    · simp only [postText, ne_eq, hd, not_false_eq_true, if_true]
      split_ifs with h1 h2
      · refine ⟨"\n\n" ++
          pySlice ((some d).getD (""))
            ((300 - (((postBase org full_name ++ "\n\n").length : Int)) - 3).toNat) ++
          "...", ?_, Or.inr (Or.inr ⟨_, rfl⟩)⟩
        rw [← String.append_assoc, ← String.append_assoc]
      · exact ⟨"", (String.append_empty _).symm, Or.inl rfl⟩
      · exact ⟨"\n\n" ++ d, (String.append_assoc _ _ _), Or.inr (Or.inl rfl)⟩

/-- When the fixed part of the post fits in the 300-character budget, the
final text does too. -/
theorem postText_le (org full_name : String) (desc : Option String)
    (h : (postBase org full_name).length ≤ 300) :
    (postText org full_name desc).length ≤ 300 := by
  have hb : ("\n\n" : String).length = 2 := rfl
  have he : ("..." : String).length = 3 := rfl
  cases desc with
  | none =>
    simp only [postText]
    split_ifs <;> omega
  | some d =>
    by_cases hd : d = ""
    · subst hd
      simp only [postText, ne_eq, not_true_eq_false, if_false]
      split_ifs with h1 h2
      · have h2' := h2.1
        simp only [String.length_append, hb] at h2'
        omega
      · exact h
      · omega
    · simp only [postText, ne_eq, hd, not_false_eq_true, if_true]
      split_ifs with h1 h2
      · have h2' := h2.1
        simp only [String.length_append, pySlice_length, hb, he] at h2' ⊢
        omega
      · exact h
      · simp only [String.length_append] at h1 ⊢
        omega

/-- A 150-character repository name, long enough that the fixed part of the
post exceeds the 300-character budget on its own. -/
def longName : String :=
  ⟨List.replicate 150 'a'⟩

/-- C2 counterexample: the claim promises a final text of at most 300
characters for every record, but with a 150-character full name the fixed
part alone is 348 characters and the produced text keeps all of it. -/
theorem c2_counterexample :
    300 < (createRepoPost id ("x") ("n") longName none).text.length := by decide

/-- C2 amended: the fixed part (org, full name, URL) always appears
untruncated at the start of the text and only the description portion is ever
shortened (dropped, kept whole, or cut and given an ellipsis); the final text
is at most 300 characters whenever the fixed part alone fits in 300
characters (with an over-long fixed part the fallback text is the bare fixed
part and can exceed the budget). -/
theorem c2_post_budget (translate : String → String)
    (org repo_name full_name : String) (description : Option String) :
    (∃ tail,
      (createRepoPost translate org repo_name full_name description).text =
        postBase org full_name ++ tail ∧
      (tail = "" ∨
        tail = "\n\n" ++ (translatedDescription translate description).getD ("") ∨
        ∃ k, tail = "\n\n" ++
          pySlice ((translatedDescription translate description).getD ("")) k ++
          "...")) ∧
    ((postBase org full_name).length ≤ 300 →
      (createRepoPost translate org repo_name full_name description).text.length ≤
        300) :=
  ⟨postText_shape org full_name (translatedDescription translate description),
   fun h => postText_le org full_name (translatedDescription translate description) h⟩

theorem c2_post_budget_witness :
    (∃ tail,
      (createRepoPost id ("acme") ("widget") ("acme/widget") (some ("w"))).text =
        postBase ("acme") ("acme/widget") ++ tail ∧
      (tail = "" ∨
        tail = "\n\n" ++ (translatedDescription id (some ("w"))).getD ("") ∨
        ∃ k, tail = "\n\n" ++
          pySlice ((translatedDescription id (some ("w"))).getD ("")) k ++ "...")) ∧
    (createRepoPost id ("acme") ("widget") ("acme/widget") (some ("w"))).text.length ≤
      300 :=
  ⟨(c2_post_budget id ("acme") ("widget") ("acme/widget") (some ("w"))).1,
   (c2_post_budget id ("acme") ("widget") ("acme/widget") (some ("w"))).2 (by decide)⟩

theorem utf8Bytes_append (s t : String) :
    utf8Bytes (s ++ t) = utf8Bytes s ++ utf8Bytes t := by
  simp [utf8Bytes, String.data_append, List.flatMap_append]

theorem findSubIdx_eq (hay pat : List Nat) :
    findSubIdx hay pat =
      if pat.isPrefixOf hay then some 0
      else
        match hay with
        | [] => none
        | _ :: t => (findSubIdx t pat).map (· + 1) := by
  cases hay <;> rfl

theorem findSubIdx_isPrefixOf (hay pat : List Nat) (i : Nat)
    (h : findSubIdx hay pat = some i) : pat.isPrefixOf (hay.drop i) = true := by
  induction hay generalizing i with
  | nil =>
    rw [findSubIdx_eq] at h
    by_cases hp : pat.isPrefixOf ([] : List Nat)
    · rw [if_pos hp] at h
      cases h
      exact hp
    · rw [if_neg hp] at h
      exact Option.noConfusion h
  | cons x t ih =>
    rw [findSubIdx_eq] at h
    by_cases hp : pat.isPrefixOf (x :: t)
    · rw [if_pos hp] at h
      cases h
      exact hp
    · rw [if_neg hp] at h
      have h' : (findSubIdx t pat).map (· + 1) = some i := h
      rcases Option.map_eq_some'.1 h' with ⟨j, hj, rfl⟩
      rw [List.drop_succ_cons]
      exact ih j hj

theorem isPrefixOf_append_self (p b : List Nat) : p.isPrefixOf (p ++ b) = true := by
  induction p with
  | nil => simp [List.isPrefixOf]
  | cons x t ih => simp [List.isPrefixOf, ih]

theorem findSubIdx_exists (a pat b : List Nat) :
    ∃ i, findSubIdx (a ++ (pat ++ b)) pat = some i := by
  induction a with
  | nil =>
    have hp : pat.isPrefixOf (pat ++ b) = true := isPrefixOf_append_self pat b
    refine ⟨0, ?_⟩
    rw [List.nil_append, findSubIdx_eq, if_pos hp]
  | cons x a' ih =>
    rcases ih with ⟨j, hj⟩
    by_cases hp : pat.isPrefixOf (x :: (a' ++ (pat ++ b)))
    · refine ⟨0, ?_⟩
      rw [List.cons_append, findSubIdx_eq, if_pos hp]
    · refine ⟨j + 1, ?_⟩
      rw [List.cons_append, findSubIdx_eq, if_neg hp]
      show (findSubIdx (a' ++ (pat ++ b)) pat).map (· + 1) = some (j + 1)
      rw [hj]
      rfl

theorem isPrefixOf_take (p l : List Nat) (h : p.isPrefixOf l = true) :
    l.take p.length = p := by
  induction p generalizing l with
  | nil => rfl
  | cons x t ih =>
    cases l with
    | nil => exact absurd h (by simp [List.isPrefixOf])
    | cons y m =>
      simp only [List.isPrefixOf, Bool.and_eq_true, beq_iff_eq] at h
      obtain ⟨rfl, hrest⟩ := h
      rw [List.length_cons, List.take_succ_cons, ih m hrest]

theorem bytesFind_eq_of_findSubIdx (hay pat : List Nat) (i : Nat)
    (h : findSubIdx hay pat = some i) : bytesFind hay pat = (i : Int) := by
  unfold bytesFind
  rw [h]

/-- C4: the post built by `create_repo_post` carries exactly one facet, whose
target is the constructed repository URL, whose `byteStart` is non-negative,
and slicing the UTF-8 encoding of the final text from `byteStart` to
`byteEnd` yields exactly the UTF-8 encoding of that URL — for every org,
name, full name and (translated) description, in particular when multi-byte
characters precede the URL. -/
theorem c4_url_facet (translate : String → String)
    (org repo_name full_name : String) (description : Option String) :
    ∃ f, (createRepoPost translate org repo_name full_name description).facets = [f] ∧
      f.uri = repoUrl full_name ∧
      0 ≤ f.byteStart ∧
      ((utf8Bytes (createRepoPost translate org repo_name full_name description).text).drop
          f.byteStart.toNat).take ((f.byteEnd - f.byteStart).toNat) =
        utf8Bytes (repoUrl full_name) := by
  have hpost : createRepoPost translate org repo_name full_name description =
      { text := postText org full_name (translatedDescription translate description),
        facets := [{
          byteStart := bytesFind
            (utf8Bytes (postText org full_name (translatedDescription translate description)))
            (utf8Bytes (repoUrl full_name)),
          byteEnd := bytesFind
            (utf8Bytes (postText org full_name (translatedDescription translate description)))
            (utf8Bytes (repoUrl full_name)) +
            ((utf8Bytes (repoUrl full_name)).length : Int),
          uri := repoUrl full_name }] } := rfl
  obtain ⟨tail, hT, -⟩ :=
    postText_shape org full_name (translatedDescription translate description)
  have hbytes : utf8Bytes (postText org full_name (translatedDescription translate description)) =
      utf8Bytes (org ++ " har nettopp åpnet repoet " ++ full_name ++ ": ") ++
        (utf8Bytes (repoUrl full_name) ++ utf8Bytes tail) := by
    rw [hT]
    show utf8Bytes (((org ++ " har nettopp åpnet repoet " ++ full_name ++ ": ") ++
      repoUrl full_name) ++ tail) = _
    rw [utf8Bytes_append, utf8Bytes_append, List.append_assoc]
  obtain ⟨i, hfind⟩ := findSubIdx_exists
    (utf8Bytes (org ++ " har nettopp åpnet repoet " ++ full_name ++ ": "))
    (utf8Bytes (repoUrl full_name)) (utf8Bytes tail)
  rw [← hbytes] at hfind
  have hbf := bytesFind_eq_of_findSubIdx _ _ i hfind
  rw [hpost]
  refine ⟨⟨(i : Int), (i : Int) + ((utf8Bytes (repoUrl full_name)).length : Int),
    repoUrl full_name⟩, ?_, rfl, ?_, ?_⟩
  · rw [hbf]
  · exact Int.natCast_nonneg i
  · have hstart : ((i : Int)).toNat = i := Int.toNat_natCast i
    have hlen : (((i : Int) + ((utf8Bytes (repoUrl full_name)).length : Int)) -
        (i : Int)).toNat = (utf8Bytes (repoUrl full_name)).length := by
      omega
    rw [hstart, hlen]
    exact isPrefixOf_take _ _ (findSubIdx_isPrefixOf _ _ i hfind)

/-- Result of reading the new-repos CSV in `post_to_bluesky.cli`. -/
inductive NewReposLoad where
  | fileMissing
  | readError
  | ok (rows : List Row)
deriving DecidableEq, Repr

/-- Result of `authenticate_bluesky`, which raises `SystemExit` on any
failure to log in or to resolve a DID. -/
inductive AuthResult where
  | ok
  | failure
deriving DecidableEq, Repr

/-- Observable outcome of one `post_to_bluesky.cli` run: the exit code, the
texts of the post records built with `create_repo_post` (printed in dry-run,
submitted otherwise), and how many records were handed to the client. -/
structure PubOutcome where
  exitCode : Nat
  formatted : List String
  submissions : Nat
deriving DecidableEq, Repr

/-- Model of `post_to_bluesky.cli`: exit 0 when the new-repos file is missing or
empty, exit 1 on a read error; then require both credential environment
variables before anything else (exit 1 otherwise — the check precedes the
dry-run branch); in dry-run build and print each post and exit 0; otherwise
authenticate (fatal on failure), build and submit each post, and exit 0
exactly when every submission succeeded.  `postSuccess i` models the result
of `post_to_bluesky` for the i-th record. -/
def publisherCli (translate : String → String) (load : NewReposLoad)
    (username password : Option String) (dryRun : Bool)
    (auth : AuthResult) (postSuccess : Nat → Bool) : PubOutcome :=
  match load with
  | .fileMissing => ⟨0, [], 0⟩
  | .readError => ⟨1, [], 0⟩
  | .ok rows =>
    if rows.length = 0 then ⟨0, [], 0⟩
    else if username.getD ("") = "" ∨ password.getD ("") = "" then ⟨1, [], 0⟩
    else if dryRun then
      ⟨0, rows.map (fun r =>
        (createRepoPost translate r.org r.name r.full_name r.description).text), 0⟩
    else
      match auth with
      | .failure => ⟨1, [], 0⟩
      | .ok =>
        let texts := rows.map (fun r =>
          (createRepoPost translate r.org r.name r.full_name r.description).text)
        let successCount := ((List.range rows.length).filter postSuccess).length
        ⟨if successCount = rows.length then 0 else 1, texts, rows.length⟩

/-- C9: when the Publisher is invoked with `--dry-run` on a non-empty
new-repos table and either `BLUESKY_USERNAME` or `BLUESKY_PASSWORD` is unset,
it exits with code 1 having formatted no post and submitted nothing: the
credential check precedes the dry-run branch. -/
theorem c9_dry_run_credentials (translate : String → String) (rows : List Row)
    (username password : Option String) (auth : AuthResult)
    (postSuccess : Nat → Bool) (hrows : rows ≠ [])
    (hcred : username = none ∨ password = none) :
    publisherCli translate (NewReposLoad.ok rows) username password true auth
      postSuccess = ⟨1, [], 0⟩ := by
  have hlen : ¬ rows.length = 0 := by
    simpa [List.length_eq_zero] using hrows
  have hc : username.getD ("") = "" ∨ password.getD ("") = "" := by
    rcases hcred with rfl | rfl
    · exact Or.inl rfl
    · exact Or.inr rfl
  simp [publisherCli, hlen, hc]

theorem c9_dry_run_credentials_witness :
    publisherCli id (NewReposLoad.ok [sampleRow]) none (some ("hunter2")) true
      AuthResult.ok (fun _ => true) = ⟨1, [], 0⟩ :=
  c9_dry_run_credentials id [sampleRow] none (some ("hunter2")) AuthResult.ok
    (fun _ => true) (by decide) (Or.inl rfl)

end NewsNerd
